import Mathlib

/-!
Verification of the LinkGuard moderation bot (src/index.js) against its
natural-language specification.

The source is a single Node.js file.  We shallow-embed the moderation core:

* `LINK_REGEX` (line 16) becomes `linkRegexTest`, an executable existential
  over match positions — `RegExp.test` returns whether *some* match exists,
  so greediness and leftmost preference are irrelevant and the existential
  is an exact model of `.test`.
* `format` (lines 117-122) becomes `format`, chaining three JavaScript
  `String.prototype.replace(string, string)` calls; JS `replace` with a
  string pattern rewrites only the first occurrence and interprets the
  `$$`/`$&`/dollar-backquote/dollar-quote patterns in the replacement,
  which `expandRepl` models.
* the `node-persist` warning store (lines 113-147) becomes an association
  list keyed by the same composite string key.
* the `client.on('message')` handler (lines 163-240) becomes the pure
  function `handleMessage`.  External effects (sendMessage, msg.delete,
  removeParticipants) are recorded as an `Effect` trace; the outcomes of
  the two fallible calls the handler guards differently — `msg.delete`
  (unguarded, so a failure is caught only by the top-level try/catch) and
  `removeParticipants` (guarded by a local try/catch) — are supplied by an
  `Env`.  `sendMessage` is modelled as always succeeding, console logging
  is elided except for the top-level error capture (`logHandlerError`),
  and JS timestamps/numbers are modelled as `Nat`.
* JS whitespace (`\s`) is modelled on its ASCII part, which is all the
  moderation texts exercise.
-/

namespace LinkBot

/-! ### Link regex (src/index.js line 16)

`/\b((https?:\/\/|www\.)[^\s]+|[a-z0-9.-]+\.(com|net|org|info|io|co|us|uk|pk|in|gov|edu|de)(\/[^\s]*)?)\b/i`

`linkRegexTest s` holds iff some span `[i, e)` of `s` is bracketed by word
boundaries and matches one of the two alternatives.  Quantifier choices
inside the alternatives are existentials over the split positions, which
is exactly the set of strings accepted by the backtracking regex. -/

def isJsSpace (c : Char) : Bool :=
  c == ' ' || c == '\t' || c == '\n' || c == '\r' || c == Char.ofNat 11 || c == Char.ofNat 12

def isWordChar (c : Char) : Bool :=
  ('a' ≤ c && c ≤ 'z') || ('A' ≤ c && c ≤ 'Z') || ('0' ≤ c && c ≤ '9') || c == '_'

def isDomainChar (c : Char) : Bool :=
  ('a' ≤ c && c ≤ 'z') || ('A' ≤ c && c ≤ 'Z') || ('0' ≤ c && c ≤ '9') || c == '.' || c == '-'

def wordAt (l : List Char) (i : Nat) : Bool :=
  match l.get? i with
  | some c => isWordChar c
  | none => false

def boundaryAt (l : List Char) (i : Nat) : Bool :=
  match i with
  | 0 => wordAt l 0
  | Nat.succ j => wordAt l j != wordAt l (j + 1)

def lowerEq (a b : Char) : Bool := a.toLower == b.toLower

def ciStartsWith : List Char → List Char → Bool
  | [], _ => true
  | _ :: _, [] => false
  | a :: as, b :: bs => lowerEq a b && ciStartsWith as bs

def urlSchemes : List (List Char) :=
  ["http://".data, "https://".data, "www.".data]

def tldList : List (List Char) :=
  (["com", "net", "org", "info", "io", "co", "us", "uk", "pk", "in", "gov", "edu", "de"]).map String.data

/-- All characters of the span `[i, e)` of `l` satisfy `p`. -/
def spanAll (l : List Char) (i e : Nat) (p : Char → Bool) : Bool :=
  ((l.drop i).take (e - i)).all p

def charAtIs (l : List Char) (i : Nat) (c : Char) : Bool :=
  match l.get? i with
  | some d => d == c
  | none => false

/-- Alternative `(https?:\/\/|www\.)[^\s]+` matched against span `[i, e)`. -/
def alt1At (l : List Char) (i e : Nat) : Bool :=
  urlSchemes.any fun pre =>
    ciStartsWith pre (l.drop i) && decide (i + pre.length < e) &&
      spanAll l (i + pre.length) e (fun c => !isJsSpace c)

/-- Alternative `[a-z0-9.-]+\.(tld)(\/[^\s]*)?` matched against span `[i, e)`. -/
def alt2At (l : List Char) (i e : Nat) : Bool :=
  (List.range (e + 1)).any fun j =>
    decide (i < j) && spanAll l i j isDomainChar && charAtIs l j '.' &&
      (tldList.any fun t =>
        ciStartsWith t (l.drop (j + 1)) &&
          (decide (e = j + 1 + t.length) ||
            (charAtIs l (j + 1 + t.length) '/' && decide (j + 2 + t.length ≤ e) &&
              spanAll l (j + 2 + t.length) e (fun c => !isJsSpace c))))

def linkRegexTestL (l : List Char) : Bool :=
  (List.range (l.length + 1)).any fun i =>
    boundaryAt l i &&
      ((List.range (l.length + 1)).any fun e =>
        boundaryAt l e && (alt1At l i e || alt2At l i e))

def linkRegexTest (s : String) : Bool := linkRegexTestL s.data

/-! ### Status command regex `/^!linkguard\s+status/i` (line 189) -/

def statusCmdL (l : List Char) : Bool :=
  ciStartsWith "!linkguard".data l &&
    (let rest := l.drop 10
     let sp := rest.takeWhile isJsSpace
     !sp.isEmpty && ciStartsWith "status".data (rest.drop sp.length))

def statusCmd (s : String) : Bool := statusCmdL s.data

/-! ### Template rendering: `format` (lines 117-122)

JavaScript `tpl.replace(pat, rep)` with a string `pat`: only the first
occurrence is rewritten, and `rep` undergoes replacement-pattern
expansion (`$$`, `$&`, dollar-backquote = part before the match,
dollar-quote = part after the match; anything else after `$` stays
literal, as with a string pattern there are no capture groups). -/

def findIdxL (pat : List Char) : List Char → Option Nat
  | [] => if pat.isPrefixOf ([] : List Char) then some 0 else none
  | c :: s => if pat.isPrefixOf (c :: s) then some 0 else (findIdxL pat s).map (· + 1)

def expandRepl (before matched after : List Char) : List Char → List Char
  | [] => []
  | [c] => if c == '$' then ['$'] else [c]
  | c :: d :: rest =>
    if c == '$' then
      if d == '$' then '$' :: expandRepl before matched after rest
      else if d == '&' then matched ++ expandRepl before matched after rest
      else if d == Char.ofNat 96 then before ++ expandRepl before matched after rest
      else if d == Char.ofNat 39 then after ++ expandRepl before matched after rest
      else '$' :: d :: expandRepl before matched after rest
    else c :: expandRepl before matched after (d :: rest)

def replaceFirstL (s pat rep : List Char) : List Char :=
  match findIdxL pat s with
  | none => s
  | some i =>
    let before := s.take i
    let after := s.drop (i + pat.length)
    before ++ expandRepl before pat after rep ++ after

def replaceFirst (s pat rep : String) : String :=
  ⟨replaceFirstL s.data pat.data rep.data⟩

structure FormatCtx where
  name : String
  count : Nat
  limit : Nat

def format (tpl : String) (ctx : FormatCtx) : String :=
  replaceFirst (replaceFirst (replaceFirst tpl "{name}" ctx.name)
      "{count}" (toString ctx.count))
    "{limit}" (toString ctx.limit)

/-! ### Warning store (lines 113-147), backed by `node-persist` -/

structure WarnRecord where
  count : Nat
  name : String
  firstAt : Option Nat
deriving DecidableEq

abbrev Store := List (String × WarnRecord)

def keyFor (groupId userId : String) : String :=
  "warn:" ++ groupId ++ ":" ++ userId

def getItem (k : String) (s : Store) : Option WarnRecord :=
  (s.find? fun kv => kv.1 == k).map (·.2)

def setItem (k : String) (v : WarnRecord) (s : Store) : Store :=
  (k, v) :: s.filter fun kv => !(kv.1 == k)

def removeItem (k : String) (s : Store) : Store :=
  s.filter fun kv => !(kv.1 == k)

def incrementWarning (store : Store) (groupId userId name : String) (now : Nat) :
    Nat × Store :=
  let k := keyFor groupId userId
  let record := (getItem k store).getD { count := 0, name := name, firstAt := some now }
  let record' := { record with count := record.count + 1, name := name }
  (record'.count, setItem k record' store)

def getWarnings (store : Store) (groupId userId : String) : WarnRecord :=
  (getItem (keyFor groupId userId) store).getD { count := 0, name := "", firstAt := none }

def resetWarnings (store : Store) (groupId userId : String) : Store :=
  removeItem (keyFor groupId userId) store

/-! ### Chat-transport data (narrow projections of the whatsapp-web.js objects) -/

structure Participant where
  pid : String
  isAdmin : Bool
  isSuperAdmin : Bool
deriving DecidableEq

structure Chat where
  isGroup : Bool
  chatId : String
  chatName : String
  participants : List Participant
deriving DecidableEq

structure Msg where
  body : String
  caption : String
  hasMedia : Bool
  msgType : String
  author : String
deriving DecidableEq

structure Contact where
  senderId : String
  pushname : String
  verifiedName : String
  number : String
deriving DecidableEq

structure Config where
  warnThreshold : Nat
  warnTemplate : String
  kickTemplate : String
  enforceGroupIds : List String

/-- Outcomes of the two fallible external calls of one handler run:
`msg.delete(true)` (line 214) and `removeParticipants` (line 223). -/
structure Env where
  deleteOk : Bool
  removeResult : Except String Unit

inductive Effect where
  | deleteAttempt
  | send (text : String)
  | removeAttempt (userId : String)
  | logHandlerError
deriving DecidableEq

/-- Line 167 / line 183: look the user up in the participant list and read
`?.isAdmin` (note: not `isSuperAdmin`), `undefined` collapsing to `false`. -/
def participantIsAdmin (chat : Chat) (uid : String) : Bool :=
  ((chat.participants.find? fun p => p.pid == uid).map fun p => p.isAdmin).getD false

/-- Lines 124-130: `isClientAdmin`. `me` is `client.info?.wid?._serialized`. -/
def isClientAdmin (me : Option String) (chat : Chat) : Bool :=
  match me with
  | none => false
  | some m =>
    match chat.participants.find? fun p => p.pid == m with
    | none => false
    | some p => p.isAdmin || p.isSuperAdmin

/-- Line 204: `sender.pushname || sender.verifiedName || sender.number || 'member'`. -/
def senderDisplayName (c : Contact) : String :=
  if c.pushname != "" then c.pushname
  else if c.verifiedName != "" then c.verifiedName
  else if c.number != "" then c.number
  else "member"

/-- JS `String.prototype.startsWith` (case-sensitive), over the character
data. -/
def jsStartsWith (s pre : String) : Bool := pre.data.isPrefixOf s.data

/-- Line 177: `msg.hasMedia && msg.type === 'ptt'`. -/
def isVoiceOf (m : Msg) : Bool := m.hasMedia && m.msgType == "ptt"

/-- Lines 196-197: `LINK_REGEX.test(msg.body || '') || (msg.caption && LINK_REGEX.test(msg.caption))`. -/
def hasLinkOf (m : Msg) : Bool :=
  linkRegexTest m.body || (m.caption != "" && linkRegexTest m.caption)

def violatesOf (m : Msg) : Bool := hasLinkOf m || isVoiceOf m

def removedText (name : String) : String := "🔴 Removed " ++ name ++ " 🔴"

def removeFailedText (name e : String) : String :=
  "❌ Tried to remove " ++ name ++ " but failed: " ++ e

def notAdminText : String := "ℹ️ I can\x27t remove members because I\x27m not a group admin."

def statusText (cfg : Config) (chat : Chat) : String :=
  "LinkGuard active. Threshold: " ++ toString cfg.warnThreshold ++ ". Group: " ++ chat.chatName

/-- Lines 210-236: the tail of the handler once a violation is established.
The increment (line 211) precedes `msg.delete(true)` (line 214); the delete
is *not* locally guarded, so on failure the exception reaches the top-level
catch (line 237-239): the error is logged and the handler returns with no
message sent.  On escalation the kick notice is sent before the bot-admin
check, and only `removeParticipants` is guarded by the inner try/catch. -/
def violationFlow (cfg : Config) (me : Option String) (env : Env) (chat : Chat)
    (sender : Contact) (now : Nat) (store : Store) : List Effect × Store :=
  let senderName := senderDisplayName sender
  let r := incrementWarning store chat.chatId sender.senderId senderName now
  let count := r.1
  let store1 := r.2
  if !env.deleteOk then ([Effect.deleteAttempt, Effect.logHandlerError], store1)
  else if cfg.warnThreshold ≤ count then
    let kickText := format cfg.kickTemplate { name := senderName, count := count, limit := cfg.warnThreshold }
    if isClientAdmin me chat then
      match env.removeResult with
      | Except.ok _ =>
        ([Effect.deleteAttempt, Effect.send kickText,
            Effect.removeAttempt sender.senderId, Effect.send (removedText senderName)],
          resetWarnings store1 chat.chatId sender.senderId)
      | Except.error e =>
        ([Effect.deleteAttempt, Effect.send kickText,
            Effect.removeAttempt sender.senderId, Effect.send (removeFailedText senderName e)],
          store1)
    else
      ([Effect.deleteAttempt, Effect.send kickText, Effect.send notAdminText], store1)
  else
    ([Effect.deleteAttempt,
        Effect.send (format cfg.warnTemplate { name := senderName, count := count, limit := cfg.warnThreshold })],
      store1)

/-- Lines 163-240: the `client.on('message')` handler as a pure function from
(config, bot id, external-call outcomes, chat, message, sender, clock, store)
to the trace of attempted side effects and the resulting store. -/
def handleMessage (cfg : Config) (me : Option String) (env : Env) (chat : Chat)
    (msg : Msg) (sender : Contact) (now : Nat) (store : Store) : List Effect × Store :=
  let isAdmin := participantIsAdmin chat sender.senderId
  if !chat.isGroup || isAdmin then ([], store)
  else if !cfg.enforceGroupIds.isEmpty && !cfg.enforceGroupIds.contains chat.chatId then
    ([], store)
  else if jsStartsWith msg.body "!linkguard" then
    let adminsOnly := isClientAdmin me chat || participantIsAdmin chat msg.author
    if !adminsOnly then ([], store)
    else if statusCmd msg.body then ([Effect.send (statusText cfg chat)], store)
    else if !(violatesOf msg) then ([], store)
    else violationFlow cfg me env chat sender now store
  else if !(violatesOf msg) then ([], store)
  else violationFlow cfg me env chat sender now store

/-! ### Fixtures for the concrete witnesses -/

def cfgA : Config :=
  { warnThreshold := 3, warnTemplate := "Warn {name} {count}/{limit}",
    kickTemplate := "Kick {name} {count}/{limit}", enforceGroupIds := [] }

def chatA : Chat :=
  { isGroup := true, chatId := "g1", chatName := "G",
    participants :=
      [{ pid := "bot", isAdmin := true, isSuperAdmin := false },
       { pid := "u1", isAdmin := true, isSuperAdmin := false },
       { pid := "u2", isAdmin := false, isSuperAdmin := false }] }

/-- A group whose bot participant is not an admin. -/
def chatNoBotAdmin : Chat :=
  { isGroup := true, chatId := "g1", chatName := "G",
    participants :=
      [{ pid := "bot", isAdmin := false, isSuperAdmin := false },
       { pid := "u1", isAdmin := true, isSuperAdmin := false },
       { pid := "u2", isAdmin := false, isSuperAdmin := false }] }

def senderBob : Contact := { senderId := "u2", pushname := "Bob", verifiedName := "", number := "" }

def senderAlice : Contact := { senderId := "u1", pushname := "Alice", verifiedName := "", number := "" }

def msgLink : Msg :=
  { body := "check https://evil.com/x", caption := "", hasMedia := false,
    msgType := "chat", author := "u2" }

def msgStatus : Msg :=
  { body := "!linkguard status", caption := "", hasMedia := false,
    msgType := "chat", author := "u2" }

def msgStatusFromAlice : Msg :=
  { body := "!linkguard status", caption := "", hasMedia := false,
    msgType := "chat", author := "u1" }

def envOk : Env := { deleteOk := true, removeResult := Except.ok () }

def envDelFail : Env := { deleteOk := false, removeResult := Except.ok () }

def envRemoveFail : Env := { deleteOk := true, removeResult := Except.error "boom" }

/-- Bob already holds two warnings in group g1. -/
def storeBob2 : Store := [(keyFor "g1" "u2", { count := 2, name := "Bob", firstAt := some 7 })]

def msgLinkFromAlice : Msg :=
  { body := "check https://evil.com/x", caption := "", hasMedia := false,
    msgType := "chat", author := "u1" }

/-- Whether the effect trace contains any sent group message. -/
def containsSend (effs : List Effect) : Bool :=
  effs.any fun e =>
    match e with
    | Effect.send _ => true
    | _ => false

/-- Whether `sub` occurs as a substring of `s`. -/
def containsSubstr (s sub : String) : Bool :=
  (findIdxL sub.data s.data).isSome

/-! ### Helper lemmas -/

/-- `pat` has no occurrence in `a ++ pat ++ b` starting before `a.length`. -/
def noEarlyOcc (pat a b : List Char) : Prop :=
  ∀ i < a.length, pat.isPrefixOf ((a ++ pat ++ b).drop i) = false

instance (pat a b : List Char) : Decidable (noEarlyOcc pat a b) := by
  unfold noEarlyOcc; infer_instance

theorem isPrefixOf_append_self (p b : List Char) : p.isPrefixOf (p ++ b) = true := by
  simp [List.isPrefixOf_iff_prefix]

theorem findIdxL_of_prefix (pat s : List Char) (h : pat.isPrefixOf s = true) :
    findIdxL pat s = some 0 := by
  cases s <;> simp [findIdxL, h]

theorem findIdxL_append (pat a b : List Char) (h : noEarlyOcc pat a b) :
    findIdxL pat (a ++ pat ++ b) = some a.length := by
  induction a with
  | nil =>
    simp only [List.nil_append, List.length_nil]
    exact findIdxL_of_prefix pat (pat ++ b) (isPrefixOf_append_self pat b)
  | cons x a ih =>
    have h0 := h 0 (by simp)
    simp only [List.cons_append, List.drop_zero] at h0
    show findIdxL pat (x :: (a ++ pat ++ b)) = some (a.length + 1)
    simp only [findIdxL, h0, Bool.false_eq_true, if_false]
    rw [ih ?_]
    · rfl
    · intro i hi
      have := h (i + 1) (by simpa using Nat.succ_lt_succ hi)
      simpa using this

theorem expandRepl_no_dollar (before matched after : List Char) :
    ∀ rep, '$' ∉ rep → expandRepl before matched after rep = rep
  | [], _ => rfl
  | [c], h => by
    have hc : (c == '$') = false := by
      apply beq_eq_false_iff_ne.mpr
      intro hcc
      exact h (by simp [hcc])
    simp [expandRepl, hc]
  | c :: d :: rest, h => by
    have hc : (c == '$') = false := by
      apply beq_eq_false_iff_ne.mpr
      intro hcc
      exact h (by simp [hcc])
    simp only [expandRepl, hc, Bool.false_eq_true, if_false, List.cons.injEq, true_and]
    exact expandRepl_no_dollar before matched after (d :: rest)
      (fun hm => h (List.mem_cons_of_mem _ hm))

theorem replaceFirstL_append (pat a b rep : List Char) (h : noEarlyOcc pat a b)
    (hrep : '$' ∉ rep) : replaceFirstL (a ++ pat ++ b) pat rep = a ++ rep ++ b := by
  unfold replaceFirstL
  rw [findIdxL_append pat a b h]
  have htake : (a ++ pat ++ b).take a.length = a := by
    rw [List.append_assoc]; exact List.take_left a (pat ++ b)
  have hdrop : (a ++ pat ++ b).drop (a.length + pat.length) = b := by
    have : (a ++ pat).length = a.length + pat.length := List.length_append a pat
    rw [← this]; exact List.drop_left (a ++ pat) b
  simp only [htake, hdrop]
  rw [expandRepl_no_dollar _ _ _ _ hrep]

theorem getItem_removeItem_self (k : String) (s : Store) :
    getItem k (removeItem k s) = none := by
  induction s with
  | nil => rfl
  | cons kv s ih =>
    by_cases hk : kv.1 == k
    · simpa [removeItem, hk] using ih
    · simp only [removeItem, List.filter] at ih ⊢
      simp only [hk, Bool.not_false, getItem, List.find?] at ih ⊢
      simp [hk, ih]

theorem colon_split (g1 g2 x y : List Char) (h1 : ':' ∉ g1) (h2 : ':' ∉ g2)
    (h : g1 ++ ':' :: x = g2 ++ ':' :: y) : g1 = g2 ∧ x = y := by
  induction g1 generalizing g2 with
  | nil =>
    cases g2 with
    | nil => simpa using h
    | cons c g2' =>
      exfalso
      simp only [List.nil_append, List.cons_append, List.cons.injEq] at h
      exact h2 (h.1 ▸ List.mem_cons_self c g2')
  | cons c g1' ih =>
    cases g2 with
    | nil =>
      exfalso
      simp only [List.cons_append, List.nil_append, List.cons.injEq] at h
      exact h1 (h.1 ▸ List.mem_cons_self c g1')
    | cons c2 g2' =>
      simp only [List.cons_append, List.cons.injEq] at h
      obtain ⟨hc, hrest⟩ := h
      have hmain := ih g2' (fun hm => h1 (List.mem_cons_of_mem _ hm))
        (fun hm => h2 (List.mem_cons_of_mem _ hm)) hrest
      exact ⟨by rw [hc, hmain.1], hmain.2⟩

theorem string_data_inj {s t : String} (h : s.data = t.data) : s = t := by
  cases s; cases t; exact congrArg String.mk h

/-- On the ordinary moderation path (group chat, non-admin sender, enforced
group, not a `!linkguard` command, violating message) the handler runs the
violation flow. -/
theorem handle_reduce_violation (cfg : Config) (me : Option String) (env : Env)
    (chat : Chat) (msg : Msg) (sender : Contact) (now : Nat) (store : Store)
    (hg : chat.isGroup = true)
    (ha : participantIsAdmin chat sender.senderId = false)
    (he : cfg.enforceGroupIds = [] ∨ chat.chatId ∈ cfg.enforceGroupIds)
    (hcmd : jsStartsWith msg.body "!linkguard" = false)
    (hv : violatesOf msg = true) :
    handleMessage cfg me env chat msg sender now store =
      violationFlow cfg me env chat sender now store := by
  unfold handleMessage
  rcases he with he | he <;> simp [hg, ha, hcmd, hv, he]

/-! ### Claims -/

/-- C1: on the moderation path, with the count `c` returned by the warning
increment, the orchestrator escalates — sends the rendered kick notice and
enters the removal path — iff `c ≥ warnThreshold`, and sends exactly the
rendered warning text iff `c < warnThreshold`; the boundary is at
`c = warnThreshold`.  The hypothesis `hne` states that the two rendered
texts differ, without which the two outcomes are not observationally
distinguishable by the sent text. -/
theorem c1_escalation_boundary (cfg : Config) (me : Option String) (env : Env)
    (chat : Chat) (msg : Msg) (sender : Contact) (now : Nat) (store : Store)
    (hg : chat.isGroup = true)
    (ha : participantIsAdmin chat sender.senderId = false)
    (he : cfg.enforceGroupIds = [] ∨ chat.chatId ∈ cfg.enforceGroupIds)
    (hcmd : jsStartsWith msg.body "!linkguard" = false)
    (hv : violatesOf msg = true)
    (hd : env.deleteOk = true)
    (hne : format cfg.kickTemplate
        { name := senderDisplayName sender,
          count := (incrementWarning store chat.chatId sender.senderId (senderDisplayName sender) now).1,
          limit := cfg.warnThreshold } ≠
      format cfg.warnTemplate
        { name := senderDisplayName sender,
          count := (incrementWarning store chat.chatId sender.senderId (senderDisplayName sender) now).1,
          limit := cfg.warnThreshold }) :
    (cfg.warnThreshold ≤ (incrementWarning store chat.chatId sender.senderId (senderDisplayName sender) now).1 ↔
      ∃ rest, (handleMessage cfg me env chat msg sender now store).1 =
        Effect.deleteAttempt ::
          Effect.send (format cfg.kickTemplate
            { name := senderDisplayName sender,
              count := (incrementWarning store chat.chatId sender.senderId (senderDisplayName sender) now).1,
              limit := cfg.warnThreshold }) :: rest) ∧
    ((incrementWarning store chat.chatId sender.senderId (senderDisplayName sender) now).1 < cfg.warnThreshold ↔
      (handleMessage cfg me env chat msg sender now store).1 =
        [Effect.deleteAttempt,
          Effect.send (format cfg.warnTemplate
            { name := senderDisplayName sender,
              count := (incrementWarning store chat.chatId sender.senderId (senderDisplayName sender) now).1,
              limit := cfg.warnThreshold })]) := by
  rw [handle_reduce_violation cfg me env chat msg sender now store hg ha he hcmd hv]
  unfold violationFlow
  simp only [hd, Bool.not_true, Bool.false_eq_true, if_false]
  by_cases hc : cfg.warnThreshold ≤
      (incrementWarning store chat.chatId sender.senderId (senderDisplayName sender) now).1
  · rw [if_pos hc]
    constructor
    · constructor
      · intro _
        by_cases hadm : isClientAdmin me chat
        · cases hrr : env.removeResult with
          | ok u =>
            refine ⟨[Effect.removeAttempt sender.senderId,
              Effect.send (removedText (senderDisplayName sender))], ?_⟩
            simp [hadm, hrr]
          | error e =>
            refine ⟨[Effect.removeAttempt sender.senderId,
              Effect.send (removeFailedText (senderDisplayName sender) e)], ?_⟩
            simp [hadm, hrr]
        · refine ⟨[Effect.send notAdminText], ?_⟩
          simp [hadm]
      · intro _; exact hc
    · constructor
      · intro hlt; exact absurd hc (Nat.not_le.mpr hlt)
      · intro heq
        exfalso
        by_cases hadm : isClientAdmin me chat
        · cases hrr : env.removeResult with
          | ok u => simp [hadm, hrr] at heq
          | error e => simp [hadm, hrr] at heq
        · simp [hadm] at heq
  · have hlt := Nat.lt_of_not_le hc
    simp only [if_neg hc]
    constructor
    · constructor
      · intro hcc; exact absurd hcc hc
      · rintro ⟨rest, hrest⟩
        exfalso
        simp only [List.cons.injEq, Effect.send.injEq] at hrest
        exact hne hrest.2.1.symm
    · exact ⟨fun _ => trivial, fun _ => hlt⟩

/-- Witness for C1 at a concrete first violation: Bob posts a link in group
g1 with an empty store, the incremented count is 1 < 3, and the handler
deletes and sends exactly the rendered warning text. -/
theorem c1_escalation_boundary_witness :
    (handleMessage cfgA (some "bot") envOk chatA msgLink senderBob 0 []).1 =
      [Effect.deleteAttempt, Effect.send "Warn Bob 1/3"] := by
  have h := (c1_escalation_boundary cfgA (some "bot") envOk chatA msgLink senderBob 0 []
    (by decide) (by decide) (Or.inl rfl) (by decide) (by decide) rfl (by decide)).2.mp (by decide)
  exact h.trans (by decide)

/-- C2: `incrementWarning` creates the record when absent with the count
starting at 0 (so the stored count and the returned count are 1) and
`firstAt` set to now, always overwrites the stored display name with the
latest supplied value, increments the count by exactly 1, persists the
record, and returns the resulting count; when the record exists, its
`firstAt` is carried over unchanged. -/
theorem c2_increment_warning (store : Store) (g u name : String) (now : Nat) :
    (getItem (keyFor g u) store = none →
      incrementWarning store g u name now =
        (1, setItem (keyFor g u) { count := 1, name := name, firstAt := some now } store)) ∧
    (∀ r : WarnRecord, getItem (keyFor g u) store = some r →
      incrementWarning store g u name now =
        (r.count + 1,
          setItem (keyFor g u) { count := r.count + 1, name := name, firstAt := r.firstAt } store)) := by
  constructor
  · intro h
    simp only [incrementWarning, h, Option.getD_none]
  · intro r h
    simp only [incrementWarning, h, Option.getD_some]

/-- Witness for C2: a first increment on an empty store returns 1 and
stamps `firstAt` with the clock; a later increment on Bob's existing
record returns 3, overwrites the name and keeps `firstAt = 7`. -/
theorem c2_increment_warning_witness :
    incrementWarning [] "g1" "u2" "Bob" 5 =
      (1, setItem (keyFor "g1" "u2") { count := 1, name := "Bob", firstAt := some 5 } []) ∧
    incrementWarning storeBob2 "g1" "u2" "Bobby" 9 =
      (3, setItem (keyFor "g1" "u2") { count := 3, name := "Bobby", firstAt := some 7 } storeBob2) := by
  constructor
  · exact (c2_increment_warning [] "g1" "u2" "Bob" 5).1 (by decide)
  · exact (c2_increment_warning storeBob2 "g1" "u2" "Bobby" 9).2
      { count := 2, name := "Bob", firstAt := some 7 } (by decide)

/-- C3: at escalation (count ≥ threshold) removal is attempted iff the bot
holds group-admin rank; on removal success the confirmation is sent and
the record is reset (a subsequent get returns the zero-value record); on
removal failure the failure notice carrying the error is sent and the
store (with the accumulated count) is left intact; when the bot is not
admin the insufficient-privileges notice is sent and the store is left
intact. -/
theorem c3_escalation_paths (cfg : Config) (me : Option String) (env : Env)
    (chat : Chat) (msg : Msg) (sender : Contact) (now : Nat) (store : Store)
    (hg : chat.isGroup = true)
    (ha : participantIsAdmin chat sender.senderId = false)
    (he : cfg.enforceGroupIds = [] ∨ chat.chatId ∈ cfg.enforceGroupIds)
    (hcmd : jsStartsWith msg.body "!linkguard" = false)
    (hv : violatesOf msg = true)
    (hd : env.deleteOk = true)
    (hc : cfg.warnThreshold ≤
      (incrementWarning store chat.chatId sender.senderId (senderDisplayName sender) now).1) :
    (isClientAdmin me chat = false →
      handleMessage cfg me env chat msg sender now store =
        ([Effect.deleteAttempt,
          Effect.send (format cfg.kickTemplate
            { name := senderDisplayName sender,
              count := (incrementWarning store chat.chatId sender.senderId (senderDisplayName sender) now).1,
              limit := cfg.warnThreshold }),
          Effect.send notAdminText],
         (incrementWarning store chat.chatId sender.senderId (senderDisplayName sender) now).2)) ∧
    (isClientAdmin me chat = true → env.removeResult = Except.ok () →
      handleMessage cfg me env chat msg sender now store =
        ([Effect.deleteAttempt,
          Effect.send (format cfg.kickTemplate
            { name := senderDisplayName sender,
              count := (incrementWarning store chat.chatId sender.senderId (senderDisplayName sender) now).1,
              limit := cfg.warnThreshold }),
          Effect.removeAttempt sender.senderId,
          Effect.send (removedText (senderDisplayName sender))],
         resetWarnings
           (incrementWarning store chat.chatId sender.senderId (senderDisplayName sender) now).2
           chat.chatId sender.senderId) ∧
      getWarnings (handleMessage cfg me env chat msg sender now store).2
          chat.chatId sender.senderId = { count := 0, name := "", firstAt := none }) ∧
    (∀ e, isClientAdmin me chat = true → env.removeResult = Except.error e →
      handleMessage cfg me env chat msg sender now store =
        ([Effect.deleteAttempt,
          Effect.send (format cfg.kickTemplate
            { name := senderDisplayName sender,
              count := (incrementWarning store chat.chatId sender.senderId (senderDisplayName sender) now).1,
              limit := cfg.warnThreshold }),
          Effect.removeAttempt sender.senderId,
          Effect.send (removeFailedText (senderDisplayName sender) e)],
         (incrementWarning store chat.chatId sender.senderId (senderDisplayName sender) now).2)) ∧
    (Effect.removeAttempt sender.senderId ∈ (handleMessage cfg me env chat msg sender now store).1 ↔
      isClientAdmin me chat = true) := by
  rw [handle_reduce_violation cfg me env chat msg sender now store hg ha he hcmd hv]
  unfold violationFlow
  simp only [hd, Bool.not_true, Bool.false_eq_true, if_false]
  rw [if_pos hc]
  refine ⟨?_, ?_, ?_, ?_⟩
  · intro hadm
    simp [hadm]
  · intro hadm hrr
    constructor
    · simp [hadm, hrr]
    · simp only [hadm, hrr, if_true]
      simp [getWarnings, resetWarnings, getItem_removeItem_self]
  · intro e hadm hrr
    simp [hadm, hrr]
  · by_cases hadm : isClientAdmin me chat
    · cases hrr : env.removeResult with
      | ok u => simp [hadm, hrr]
      | error e => simp [hadm, hrr]
    · simp [hadm]

/-- Witness for C3: Bob's third link message in group g1 with an admin bot
and a successful removal: kick notice, removal, confirmation, and the
record is gone afterwards. -/
theorem c3_escalation_paths_witness :
    handleMessage cfgA (some "bot") envOk chatA msgLink senderBob 9 storeBob2 =
      ([Effect.deleteAttempt, Effect.send "Kick Bob 3/3",
        Effect.removeAttempt "u2", Effect.send "🔴 Removed Bob 🔴"], []) ∧
    getWarnings (handleMessage cfgA (some "bot") envOk chatA msgLink senderBob 9 storeBob2).2
        "g1" "u2" = { count := 0, name := "", firstAt := none } := by
  have h := (c3_escalation_paths cfgA (some "bot") envOk chatA msgLink senderBob 9 storeBob2
    (by decide) (by decide) (Or.inl rfl) (by decide) (by decide) rfl (by decide)).2.1 rfl rfl
  exact ⟨h.1.trans (by decide), h.2⟩

/-- C4, counterexample: the claim says a deletion failure "does not block
sending the rendered warning text".  On a first-violation link message with
the deletion failing, the handler (whose unguarded `await msg.delete(true)`
throws into the top-level catch) logs the error and returns without sending
anything — no warning text is sent, refuting the claim. -/
theorem c4_counterexample :
    violatesOf msgLink = true ∧
    handleMessage cfgA (some "bot") envDelFail chatA msgLink senderBob 0 [] =
      ([Effect.deleteAttempt, Effect.logHandlerError],
        [(keyFor "g1" "u2", { count := 1, name := "Bob", firstAt := some 0 })]) ∧
    containsSend (handleMessage cfgA (some "bot") envDelFail chatA msgLink senderBob 0 []).1 = false := by
  exact ⟨by decide, by decide, by decide⟩

/-- C4 as amended: a deletion failure is caught by the top-level handler
catch and logged, and the already-incremented warning count is persisted,
but it aborts the processing of that message: no warning or kick text is
sent.  Processing of other messages is unaffected (the handler is a total
function returning normally). -/
theorem c4_amended (cfg : Config) (me : Option String) (env : Env)
    (chat : Chat) (msg : Msg) (sender : Contact) (now : Nat) (store : Store)
    (hg : chat.isGroup = true)
    (ha : participantIsAdmin chat sender.senderId = false)
    (he : cfg.enforceGroupIds = [] ∨ chat.chatId ∈ cfg.enforceGroupIds)
    (hcmd : jsStartsWith msg.body "!linkguard" = false)
    (hv : violatesOf msg = true)
    (hd : env.deleteOk = false) :
    handleMessage cfg me env chat msg sender now store =
      ([Effect.deleteAttempt, Effect.logHandlerError],
        (incrementWarning store chat.chatId sender.senderId (senderDisplayName sender) now).2) := by
  rw [handle_reduce_violation cfg me env chat msg sender now store hg ha he hcmd hv]
  unfold violationFlow
  simp [hd]

/-- Witness for C4's amended claim at a concrete input: failing deletion on
Bob's third violation logs and keeps the incremented store. -/
theorem c4_amended_witness :
    handleMessage cfgA (some "bot") envDelFail chatA msgLink senderBob 1 storeBob2 =
      ([Effect.deleteAttempt, Effect.logHandlerError],
        (incrementWarning storeBob2 "g1" "u2" "Bob" 1).2) :=
  c4_amended cfgA (some "bot") envDelFail chatA msgLink senderBob 1 storeBob2
    (by decide) (by decide) (Or.inl rfl) (by decide) (by decide) rfl

/-- C5, counterexample: the claim says the status reply is sent iff the
issuer or the bot holds admin rank.  Here Alice, a group admin, issues
`!linkguard status` in a group where the bot is also admin — yet the
handler returns at the admin-exemption check (line 170) before the command
branch, and no reply is sent. -/
theorem c5_counterexample :
    participantIsAdmin chatA senderAlice.senderId = true ∧
    isClientAdmin (some "bot") chatA = true ∧
    handleMessage cfgA (some "bot") envOk chatA msgStatusFromAlice senderAlice 0 [] = ([], []) := by
  exact ⟨by decide, by decide, by decide⟩

/-- C5 as amended: because admin senders are filtered out before the
command branch, the status reply (current threshold and group name) is
sent iff the issuer is *not* a group admin and the bot *is* (reading the
issuer's admin flag consistently, `msg.author = sender.id`); unrecognized
`!linkguard` sub-commands that contain no link and are not voice messages
are silently ignored with no reply. -/
theorem c5_amended (cfg : Config) (me : Option String) (env : Env)
    (chat : Chat) (msg : Msg) (sender : Contact) (now : Nat) (store : Store)
    (hg : chat.isGroup = true)
    (he : cfg.enforceGroupIds = [] ∨ chat.chatId ∈ cfg.enforceGroupIds)
    (hauthor : msg.author = sender.senderId)
    (hcmd : jsStartsWith msg.body "!linkguard" = true) :
    (statusCmd msg.body = true →
      handleMessage cfg me env chat msg sender now store =
        (if !(participantIsAdmin chat sender.senderId) && isClientAdmin me chat then
          ([Effect.send (statusText cfg chat)], store)
        else ([], store))) ∧
    (statusCmd msg.body = false → violatesOf msg = false →
      handleMessage cfg me env chat msg sender now store = ([], store)) := by
  constructor
  · intro hst
    unfold handleMessage
    by_cases ha : participantIsAdmin chat sender.senderId
    · simp [ha]
    · rcases he with he | he <;> by_cases hb : isClientAdmin me chat <;>
        simp [hg, ha, he, hcmd, hst, hauthor, hb]
  · intro hst hv
    unfold handleMessage
    by_cases ha : participantIsAdmin chat sender.senderId
    · simp [ha]
    · rcases he with he | he <;>
        by_cases hb : isClientAdmin me chat || participantIsAdmin chat msg.author <;>
          simp [hg, ha, he, hcmd, hst, hv, hb]

/-- Witness for C5's amended claim: non-admin Bob issues the status command
with an admin bot, and the reply carries the threshold and group name. -/
theorem c5_amended_witness :
    handleMessage cfgA (some "bot") envOk chatA msgStatus senderBob 0 [] =
      ([Effect.send "LinkGuard active. Threshold: 3. Group: G"], []) := by
  have h := (c5_amended cfgA (some "bot") envOk chatA msgStatus senderBob 0 []
    (by decide) (Or.inl rfl) (by decide) (by decide)).1 (by decide)
  exact h.trans (by decide)

/-- C6: the violation detector accepts a scheme-prefixed URL and a bare
domain with an allow-listed top-level label, rejects plain link-free text,
and accepts every voice message (`hasMedia` with type `ptt`) regardless of
its text and caption. -/
theorem c6_violation_detector :
    violatesOf { body := "check https://evil.com/x", caption := "", hasMedia := false, msgType := "chat", author := "u2" } = true ∧
    violatesOf { body := "hello world", caption := "", hasMedia := false, msgType := "chat", author := "u2" } = false ∧
    violatesOf { body := "contact me at example.io", caption := "", hasMedia := false, msgType := "chat", author := "u2" } = true ∧
    ∀ body caption author : String,
      violatesOf { body := body, caption := caption, hasMedia := true, msgType := "ptt", author := author } = true := by
  refine ⟨by decide, by decide, by decide, ?_⟩
  intro body caption author
  simp [violatesOf, isVoiceOf]

/-- C7: for every template decomposing as
`a ++ "{name}" ++ b ++ "{count}" ++ c ++ "{limit}" ++ d` — `a`-`d`
arbitrary, so they may carry unknown placeholders such as `{foo}` and
literal braces — provided each placeholder's written occurrence is its
first occurrence at each step and the substituted values contain no `$`
replacement patterns, `format` replaces each placeholder with its value
exactly once and passes everything else through verbatim. -/
theorem c7_format_substitution (tpl : String) (ctx : FormatCtx) (a b c d : List Char)
    (htpl : tpl.data = a ++ "{name}".data ++ b ++ "{count}".data ++ c ++ "{limit}".data ++ d)
    (h1 : noEarlyOcc "{name}".data a (b ++ "{count}".data ++ c ++ "{limit}".data ++ d))
    (h2 : noEarlyOcc "{count}".data (a ++ ctx.name.data ++ b) (c ++ "{limit}".data ++ d))
    (h3 : noEarlyOcc "{limit}".data
      (a ++ ctx.name.data ++ b ++ (toString ctx.count).data ++ c) d)
    (hn : '$' ∉ ctx.name.data)
    (hcnt : '$' ∉ (toString ctx.count).data)
    (hlim : '$' ∉ (toString ctx.limit).data) :
    (format tpl ctx).data =
      a ++ ctx.name.data ++ b ++ (toString ctx.count).data ++ c ++
        (toString ctx.limit).data ++ d := by
  have s1 : replaceFirstL tpl.data "{name}".data ctx.name.data =
      a ++ ctx.name.data ++ b ++ "{count}".data ++ c ++ "{limit}".data ++ d := by
    have h := replaceFirstL_append "{name}".data a
      (b ++ "{count}".data ++ c ++ "{limit}".data ++ d) ctx.name.data h1 hn
    have e1 : a ++ "{name}".data ++ (b ++ "{count}".data ++ c ++ "{limit}".data ++ d) =
        a ++ "{name}".data ++ b ++ "{count}".data ++ c ++ "{limit}".data ++ d := by
      simp [List.append_assoc]
    have e2 : a ++ ctx.name.data ++ (b ++ "{count}".data ++ c ++ "{limit}".data ++ d) =
        a ++ ctx.name.data ++ b ++ "{count}".data ++ c ++ "{limit}".data ++ d := by
      simp [List.append_assoc]
    rw [htpl, ← e1, h, e2]
  have s2 : replaceFirstL
      (a ++ ctx.name.data ++ b ++ "{count}".data ++ c ++ "{limit}".data ++ d)
      "{count}".data (toString ctx.count).data =
      a ++ ctx.name.data ++ b ++ (toString ctx.count).data ++ c ++ "{limit}".data ++ d := by
    have h := replaceFirstL_append "{count}".data (a ++ ctx.name.data ++ b)
      (c ++ "{limit}".data ++ d) (toString ctx.count).data h2 hcnt
    have e1 : a ++ ctx.name.data ++ b ++ "{count}".data ++ (c ++ "{limit}".data ++ d) =
        a ++ ctx.name.data ++ b ++ "{count}".data ++ c ++ "{limit}".data ++ d := by
      simp [List.append_assoc]
    have e2 : a ++ ctx.name.data ++ b ++ (toString ctx.count).data ++ (c ++ "{limit}".data ++ d) =
        a ++ ctx.name.data ++ b ++ (toString ctx.count).data ++ c ++ "{limit}".data ++ d := by
      simp [List.append_assoc]
    rw [e1, e2] at h
    exact h
  have s3 : replaceFirstL
      (a ++ ctx.name.data ++ b ++ (toString ctx.count).data ++ c ++ "{limit}".data ++ d)
      "{limit}".data (toString ctx.limit).data =
      a ++ ctx.name.data ++ b ++ (toString ctx.count).data ++ c ++ (toString ctx.limit).data ++ d := by
    have h := replaceFirstL_append "{limit}".data
      (a ++ ctx.name.data ++ b ++ (toString ctx.count).data ++ c) d
      (toString ctx.limit).data h3 hlim
    have e1 : a ++ ctx.name.data ++ b ++ (toString ctx.count).data ++ c ++ "{limit}".data ++ d =
        (a ++ ctx.name.data ++ b ++ (toString ctx.count).data ++ c) ++ "{limit}".data ++ d := by
      simp [List.append_assoc]
    have e2 : a ++ ctx.name.data ++ b ++ (toString ctx.count).data ++ c ++ (toString ctx.limit).data ++ d =
        (a ++ ctx.name.data ++ b ++ (toString ctx.count).data ++ c) ++ (toString ctx.limit).data ++ d := by
      simp [List.append_assoc]
    rw [e1, e2]
    exact h
  show replaceFirstL (replaceFirstL (replaceFirstL tpl.data "{name}".data ctx.name.data)
      "{count}".data (toString ctx.count).data) "{limit}".data (toString ctx.limit).data = _
  rw [s1, s2, s3]

/-- Witness for C7: the spec's example template extended with the unknown
placeholder `{foo}`, which passes through verbatim. -/
theorem c7_format_substitution_witness :
    format "{name} hit {count}/{limit} {foo}" { name := "Alice", count := 3, limit := 3 } =
      "Alice hit 3/3 {foo}" := by
  have h := c7_format_substitution "{name} hit {count}/{limit} {foo}"
    { name := "Alice", count := 3, limit := 3 } [] " hit ".data "/".data " {foo}".data
    (by decide) (by decide) (by decide) (by decide) (by decide) (by decide) (by decide)
  exact string_data_inj (h.trans (by decide))

/-- C8: a violating message from a group admin, or in a group outside a
non-empty `enforcedGroupIds`, produces no state change and no side effects:
the handler returns an empty effect trace and the store untouched. -/
theorem c8_frame (cfg : Config) (me : Option String) (env : Env)
    (chat : Chat) (msg : Msg) (sender : Contact) (now : Nat) (store : Store)
    (_hv : violatesOf msg = true)
    (h : participantIsAdmin chat sender.senderId = true ∨
      (cfg.enforceGroupIds ≠ [] ∧ chat.chatId ∉ cfg.enforceGroupIds)) :
    handleMessage cfg me env chat msg sender now store = ([], store) := by
  unfold handleMessage
  rcases h with ha | ⟨hne, hnm⟩
  · simp [ha]
  · by_cases hg : chat.isGroup
    · by_cases ha : participantIsAdmin chat sender.senderId
      · simp [ha]
      · cases hlist : cfg.enforceGroupIds with
        | nil => exact absurd hlist hne
        | cons x xs =>
          rw [hlist] at hnm
          simp [hg, ha, hnm]
    · simp [hg]

/-- Witness for C8: admin Alice posts a link and nothing happens — no
effects and the store (holding Bob's warnings) unchanged. -/
theorem c8_frame_witness :
    handleMessage cfgA (some "bot") envOk chatA msgLinkFromAlice senderAlice 0 storeBob2 =
      ([], storeBob2) :=
  c8_frame cfgA (some "bot") envOk chatA msgLinkFromAlice senderAlice 0 storeBob2
    (by decide) (Or.inl (by decide))

/-- C9, counterexample: the composite key `warn:<groupId>:<userId>` is not
injective over arbitrary ids — the distinct pairs ("a:b", "c") and
("a", "b:c") collide on the key "warn:a:b:c", refuting the claim that
distinct pairs always map to distinct keys. -/
theorem c9_counterexample :
    keyFor "a:b" "c" = keyFor "a" "b:c" ∧
      (("a:b", "c") : String × String) ≠ ("a", "b:c") := by
  exact ⟨by decide, by decide⟩

/-- C9 as amended: the composite key is injective on pairs whose group id
contains no colon (true of WhatsApp group ids), so for such pairs
operations on one pair never touch another pair's record; and absence of a
record is equivalent to the zero-value record (`get` returns count 0). -/
theorem c9_amended :
    (∀ g1 u1 g2 u2 : String, ':' ∉ g1.data → ':' ∉ g2.data →
      keyFor g1 u1 = keyFor g2 u2 → g1 = g2 ∧ u1 = u2) ∧
    (∀ (store : Store) (g u : String), getItem (keyFor g u) store = none →
      getWarnings store g u = { count := 0, name := "", firstAt := none }) := by
  constructor
  · intro g1 u1 g2 u2 h1 h2 heq
    unfold keyFor at heq
    have hd := congrArg String.data heq
    simp only [String.data_append] at hd
    simp only [List.append_assoc] at hd
    have hd' : g1.data ++ (':' :: u1.data) = g2.data ++ (':' :: u2.data) := by
      have hcut := List.append_inj_right hd rfl
      simpa using hcut
    obtain ⟨hg, hu⟩ := colon_split g1.data g2.data u1.data u2.data h1 h2 hd'
    exact ⟨string_data_inj hg, string_data_inj hu⟩
  · intro store g u h
    unfold getWarnings
    rw [h]
    rfl

/-- Witness for C9's amended claim at colon-free ids and the empty store. -/
theorem c9_amended_witness :
    (("gg" : String) = "gg" ∧ ("uu" : String) = "uu") ∧
    getWarnings [] "gg" "uu" = { count := 0, name := "", firstAt := none } :=
  ⟨c9_amended.1 "gg" "uu" "gg" "uu" (by decide) (by decide) rfl,
    c9_amended.2 [] "gg" "uu" rfl⟩

/-- C10: `format` substitutes sequentially with first-occurrence JS
`replace`, so a user-controlled display name that is itself a replacement
pattern is rewritten by the substitution machinery: with name `$&` the
first replace re-inserts the matched `{name}` placeholder, the later
replaces leave it, and the rendered text does not contain the display name
verbatim. -/
theorem c10_sequential_substitution :
    format "{name} hit {count}/{limit}" { name := "$&", count := 3, limit := 3 } =
      "{name} hit 3/3" ∧
    containsSubstr
      (format "{name} hit {count}/{limit}" { name := "$&", count := 3, limit := 3 })
      "$&" = false := by
  exact ⟨by decide, by decide⟩

end LinkBot
